import Mathlib

/-!
Verification of the agent-runtime core of the `ai-company-framework`
repository: the bounded-retry event dispatcher, the per-agent event loop,
the poll loop, the orchestrator's agent registry and event routing, the
webhook ingress gateway, and the two concrete agents
(`ProductManagerAgent`, `DeveloperAgent`).

Python constructs are shallowly embedded:
  * raised exceptions become `Except PyErr`;
  * `dict` payload accesses that may raise `KeyError` read `Option` fields;
  * the `asyncio.Queue` of an agent plus its event loop become an explicit
    transition relation on a loop state;
  * external service clients (Linear, GitHub, Slack, the `claude`
    subprocess) are records of response functions: the client code is pure
    HTTP plumbing, so the record captures exactly the interface the agents
    call, with each call allowed to fail (`Except`).
-/

namespace AICompany

/-- Python exceptions that the embedded code can raise. -/
inductive PyErr : Type where
  | assertionError : PyErr
  | keyError : String → PyErr
  | valueError : String → PyErr
  | runtimeError : String → PyErr
  deriving DecidableEq, Repr

/-- From `src/agents/base_agent.py`, class `Event`: a typed event
`{kind, source, payload}`.  The payload is a `dict[str, Any]` in Python;
the embedding is polymorphic in the payload type. -/
structure Event (α : Type) : Type where
  kind : String
  source : String
  payload : α
  deriving DecidableEq, Repr

/-! ## Bounded-retry dispatcher (`BaseAgent._dispatch_event`)

The handler's behaviour is abstracted as `handler : Nat → Bool`:
`handler k = true` iff `self.handle_event(event)` returns normally on
attempt number `k` (attempts are numbered from 1, as in
`range(1, self._max_retries + 1)`). -/

/-- Result of one `_dispatch_event` call: how many times `handle_event`
was invoked, whether the dispatch ended in success (`return`) or
abandonment (fall through the loop), and the list of backoff sleep
durations performed, in order. -/
structure DispatchResult : Type where
  invocations : Nat
  success : Bool
  sleeps : List ℚ
  deriving DecidableEq, Repr

/-- The `for attempt in range(1, max_retries+1)` loop of
`BaseAgent._dispatch_event`, unrolled structurally on the number of
remaining iterations.  `attempt` is the current attempt number,
`remaining` the number of loop iterations still to run.  On success the
loop returns at once; on failure it sleeps `backoff * attempt` iff
`attempt < maxRetries`, then continues. -/
def dispatchLoop (backoff : ℚ) (handler : Nat → Bool) (maxRetries : Nat) :
    Nat → Nat → DispatchResult
  | _, 0 => ⟨0, false, []⟩
  | attempt, remaining + 1 =>
    if handler attempt then
      ⟨1, true, []⟩
    else
      let tail := dispatchLoop backoff handler maxRetries (attempt + 1) remaining
      if attempt < maxRetries then
        ⟨tail.invocations + 1, tail.success, (backoff * attempt : ℚ) :: tail.sleeps⟩
      else
        ⟨tail.invocations + 1, tail.success, tail.sleeps⟩

/-- Embedding of `BaseAgent._dispatch_event`: run the retry loop for attempts
`1 .. max_retries`. -/
def dispatchEvent (maxRetries : Nat) (backoff : ℚ) (handler : Nat → Bool) :
    DispatchResult :=
  dispatchLoop backoff handler maxRetries 1 maxRetries

/-- The retry loop never invokes the handler more often than it has
iterations left. -/
lemma dispatchLoop_invocations_le (b : ℚ) (h : Nat → Bool) (m : Nat) :
    ∀ r a, (dispatchLoop b h m a r).invocations ≤ r := by
  intro r
  induction r with
  | zero => intro a; simp [dispatchLoop]
  | succ r ih =>
    intro a
    cases hh : h a with
    | true => simp [dispatchLoop, hh]
    | false =>
      by_cases hlt : a < m
      · simp only [dispatchLoop, hh, Bool.false_eq_true, if_false, hlt, if_true]
        have := ih (a + 1)
        omega
      · simp only [dispatchLoop, hh, Bool.false_eq_true, if_false, hlt]
        have := ih (a + 1)
        omega

/-- One-step unfolding of `dispatchLoop` when iterations remain. -/
lemma dispatchLoop_succ (b : ℚ) (h : Nat → Bool) (m a r : Nat) :
    dispatchLoop b h m a (r + 1) =
      if h a then ⟨1, true, []⟩
      else
        let tail := dispatchLoop b h m (a + 1) r
        if a < m then
          ⟨tail.invocations + 1, tail.success, (b * (a : ℚ)) :: tail.sleeps⟩
        else
          ⟨tail.invocations + 1, tail.success, tail.sleeps⟩ := rfl

/-- Prepending one backoff sleep to a shifted schedule gives the longer
schedule. -/
lemma backoff_cons (b : ℚ) (a r : Nat) :
    (b * (a : ℚ)) :: (List.range r).map (fun i => b * ((a + 1 + i : Nat) : ℚ))
      = (List.range (r + 1)).map (fun i => b * ((a + i : Nat) : ℚ)) := by
  rw [List.range_succ_eq_map, List.map_cons, List.map_map]
  refine congrArg₂ List.cons (by norm_num) ?_
  refine List.map_congr_left (fun i _ => ?_)
  simp only [Function.comp_apply]
  push_cast
  ring

/-- If the handler fails on every attempt the loop can reach, the loop
performs all its iterations, ends unsuccessfully, and sleeps
`backoff * attempt` after every attempt except the last one
(`a + r = m + 1` says the loop's last iteration is attempt `m`). -/
lemma dispatchLoop_fail_all (b : ℚ) (h : Nat → Bool) (m : Nat) :
    ∀ r a, a + r = m + 1 →
      (∀ k, a ≤ k → k < a + r → h k = false) →
      dispatchLoop b h m a r =
        ⟨r, false, (List.range (r - 1)).map (fun i => b * ((a + i : Nat) : ℚ))⟩ := by
  intro r
  induction r with
  | zero => intro a _ _; simp [dispatchLoop]
  | succ r ih =>
    intro a ha hfail
    have hha : h a = false := hfail a le_rfl (by omega)
    cases r with
    | zero =>
      have hnlt : ¬ a < m := by omega
      simp [dispatchLoop, hha, hnlt]
    | succ r' =>
      have hlt : a < m := by omega
      have htail := ih (a + 1) (by omega) (fun k hk1 hk2 => hfail k (by omega) (by omega))
      rw [dispatchLoop_succ]
      simp only [hha, Bool.false_eq_true, if_false, hlt, if_true, htail,
        Nat.add_sub_cancel]
      exact congrArg (DispatchResult.mk (r' + 1 + 1) false) (backoff_cons b a r')

/-- If the handler fails on attempts `a .. n-1` and succeeds on attempt
`n` (which the loop reaches and which is within the retry budget), the
loop performs exactly `n - a + 1` invocations, succeeds, and sleeps
`backoff * k` after each failed attempt `k`. -/
lemma dispatchLoop_succeed_at (b : ℚ) (h : Nat → Bool) (m : Nat) :
    ∀ r a n, a ≤ n → n < a + r → n ≤ m →
      (∀ k, a ≤ k → k < n → h k = false) → h n = true →
      dispatchLoop b h m a r =
        ⟨n - a + 1, true, (List.range (n - a)).map (fun i => b * ((a + i : Nat) : ℚ))⟩ := by
  intro r
  induction r with
  | zero => intro a n h1 h2; omega
  | succ r ih =>
    intro a n han hnr hnm hfail hsucc
    by_cases heq : a = n
    · subst heq
      simp [dispatchLoop, hsucc]
    · have hha : h a = false := hfail a le_rfl (by omega)
      have hlt : a < m := by omega
      have htail := ih (a + 1) n (by omega) (by omega) hnm
        (fun k hk1 hk2 => hfail k (by omega) hk2) hsucc
      rw [dispatchLoop_succ]
      simp only [hha, Bool.false_eq_true, if_false, hlt, if_true, htail]
      have hna : n - a = (n - (a + 1)) + 1 := by omega
      rw [hna]
      exact congrArg (DispatchResult.mk (n - (a + 1) + 1 + 1) true)
        (backoff_cons b a (n - (a + 1)))

/-- Claim C1: for `max_retries ≥ 1`, `_dispatch_event` invokes
`handle_event` at most `max_retries` times; a handler that fails on the
first `n-1` attempts and succeeds on attempt `n ≤ max_retries` is invoked
exactly `n` times and the dispatch resolves as a success; a handler that
fails on every attempt is invoked exactly `max_retries` times and the
event is abandoned (no success, no further retry). -/
theorem retry_dispatch_bounded (m : Nat) (hm : 1 ≤ m) (b : ℚ) (h : Nat → Bool) :
    (dispatchEvent m b h).invocations ≤ m
    ∧ (∀ n, 1 ≤ n → n ≤ m → (∀ k, 1 ≤ k → k < n → h k = false) → h n = true →
        (dispatchEvent m b h).invocations = n ∧ (dispatchEvent m b h).success = true)
    ∧ ((∀ k, 1 ≤ k → k ≤ m → h k = false) →
        (dispatchEvent m b h).invocations = m ∧ (dispatchEvent m b h).success = false) := by
  refine ⟨dispatchLoop_invocations_le b h m m 1, ?_, ?_⟩
  · intro n hn1 hnm hfail hsucc
    have := dispatchLoop_succeed_at b h m m 1 n hn1 (by omega) hnm
      (fun k hk1 hk2 => hfail k hk1 hk2) hsucc
    rw [dispatchEvent, this]
    refine ⟨?_, rfl⟩
    show n - 1 + 1 = n
    omega
  · intro hfail
    have := dispatchLoop_fail_all b h m m 1 (by omega)
      (fun k hk1 hk2 => hfail k hk1 (by omega))
    rw [dispatchEvent, this]
    exact ⟨rfl, rfl⟩

/-- Witness for C1: with `max_retries = 3` and a handler succeeding on
attempt 2, dispatch invokes the handler exactly twice and succeeds. -/
theorem retry_dispatch_bounded_witness :
    (dispatchEvent 3 5 (fun k => decide (k = 2))).invocations = 2
    ∧ (dispatchEvent 3 5 (fun k => decide (k = 2))).success = true :=
  (retry_dispatch_bounded 3 (by decide) 5 (fun k => decide (k = 2))).2.1 2
    (by decide) (by decide)
    (by
      intro k hk1 hk2
      have hk : k = 1 := by omega
      subst hk
      rfl)
    (by decide)

/-- Claim C9: the backoff schedule of `_dispatch_event` is linear with no
jitter and no cap: when the handler fails every attempt, the sleeps
performed are exactly `backoff * 1, backoff * 2, …, backoff * (m-1)` — one
after each failed attempt `k < max_retries` and none after the final
attempt; when the handler first succeeds on attempt `n`, the sleeps are
exactly `backoff * 1, …, backoff * (n-1)`. -/
theorem retry_backoff_linear (m : Nat) (hm : 1 ≤ m) (b : ℚ) (h : Nat → Bool) :
    ((∀ k, 1 ≤ k → k ≤ m → h k = false) →
      (dispatchEvent m b h).sleeps =
        (List.range (m - 1)).map (fun i => b * ((1 + i : Nat) : ℚ)))
    ∧ (∀ n, 1 ≤ n → n ≤ m → (∀ k, 1 ≤ k → k < n → h k = false) → h n = true →
      (dispatchEvent m b h).sleeps =
        (List.range (n - 1)).map (fun i => b * ((1 + i : Nat) : ℚ))) := by
  constructor
  · intro hfail
    have := dispatchLoop_fail_all b h m m 1 (by omega)
      (fun k hk1 hk2 => hfail k hk1 (by omega))
    rw [dispatchEvent, this]
  · intro n hn1 hnm hfail hsucc
    have := dispatchLoop_succeed_at b h m m 1 n hn1 (by omega) hnm
      (fun k hk1 hk2 => hfail k hk1 hk2) hsucc
    rw [dispatchEvent, this]

/-- Witness for C9: with `max_retries = 3`, backoff base `5` and an
always-failing handler, the sleeps are exactly `[5, 10]`. -/
theorem retry_backoff_linear_witness :
    (dispatchEvent 3 5 (fun _ => false)).sleeps = [(5 : ℚ), 10] := by
  have := (retry_backoff_linear 3 (by decide) 5 (fun _ => false)).1
    (fun k _ _ => rfl)
  rw [this]
  norm_num [List.range_succ]

/-! ## Event loop ordering (`BaseAgent._event_loop` + `push_event`)

`push_event` is a synchronous `put_nowait` on the agent's private
`asyncio.Queue` (FIFO); the event loop repeatedly awaits `get` (with the
1-second timeout branch looping without effect) and then awaits
`_dispatch_event(event)` to completion before the next `get`.  The system
is modelled as a transition relation: producers (routing, `poll`) may push
at any step boundary — including before the loop has ever dequeued,
i.e. before the agent starts — and the loop dequeues only when no event is
currently being dispatched.  `pushed` is the (ghost) history of pushes in
order. -/

/-- State of one agent's queue + event loop. -/
structure LoopState (α : Type) : Type where
  pushed : List (Event α)
  queue : List (Event α)
  current : Option (Event α)
  processed : List (Event α)

/-- Transitions of the queue + event-loop system. -/
inductive LoopStep {α : Type} : LoopState α → LoopState α → Prop where
  | push (e : Event α) (p q : List (Event α)) (c : Option (Event α))
      (d : List (Event α)) :
      LoopStep ⟨p, q, c, d⟩ ⟨p ++ [e], q ++ [e], c, d⟩
  | timeout (p q : List (Event α)) (c : Option (Event α)) (d : List (Event α)) :
      LoopStep ⟨p, q, c, d⟩ ⟨p, q, c, d⟩
  | dequeue (e : Event α) (p q d : List (Event α)) :
      LoopStep ⟨p, e :: q, none, d⟩ ⟨p, q, some e, d⟩
  | finish (e : Event α) (p q d : List (Event α)) :
      LoopStep ⟨p, q, some e, d⟩ ⟨p, q, none, d ++ [e]⟩

/-- At construction the queue is empty and nothing has been dispatched. -/
def initLoopState (α : Type) : LoopState α := ⟨[], [], none, []⟩

/-- A loop state the agent system can actually reach. -/
def LoopReachable {α : Type} (s : LoopState α) : Prop :=
  Relation.ReflTransGen LoopStep (initLoopState α) s

/-- Claim C2: per-agent FIFO dispatch: in every reachable state, the push
history decomposes exactly as
`fully-resolved events ++ the (at most one) event being dispatched ++ the
still-queued events`, each part in push order.  Hence no pushed event is
lost (including events pushed before the first dequeue, i.e. before the
agent starts), at most one event is in dispatch at a time, an event is
fully resolved before the next is dequeued (`dequeue` requires
`current = none`), and handler invocations are totally ordered by push
order. -/
theorem event_loop_fifo {α : Type} (s : LoopState α) (hs : LoopReachable s) :
    s.pushed = s.processed ++ s.current.toList ++ s.queue := by
  induction hs with
  | refl => rfl
  | tail _ hstep ih =>
    cases hstep with
    | push e p q c d => simp_all [List.append_assoc]
    | timeout p q c d => exact ih
    | dequeue e p q d => simp_all
    | finish e p q d => simp_all [List.append_assoc]

/-- Concrete events for the C2 witness. -/
def wEvent1 : Event Unit := ⟨"idea_submitted", "linear", ()⟩

/-- Concrete events for the C2 witness. -/
def wEvent2 : Event Unit := ⟨"ticket_assigned", "poll", ()⟩

/-- Witness for C2: after pushing two events (the first before any
dequeue), dequeuing and fully resolving the first, the reached state
satisfies the FIFO decomposition. -/
theorem event_loop_fifo_witness :
    LoopReachable (⟨[wEvent1, wEvent2], [wEvent2], none, [wEvent1]⟩ : LoopState Unit)
    ∧ ([wEvent1, wEvent2] : List (Event Unit))
        = [wEvent1] ++ (none : Option (Event Unit)).toList ++ [wEvent2] := by
  have h1 : LoopStep (initLoopState Unit) ⟨[wEvent1], [wEvent1], none, []⟩ :=
    LoopStep.push wEvent1 [] [] none []
  have h2 : LoopStep (⟨[wEvent1], [wEvent1], none, []⟩ : LoopState Unit)
      ⟨[wEvent1, wEvent2], [wEvent1, wEvent2], none, []⟩ :=
    LoopStep.push wEvent2 [wEvent1] [wEvent1] none []
  have h3 : LoopStep (⟨[wEvent1, wEvent2], [wEvent1, wEvent2], none, []⟩ : LoopState Unit)
      ⟨[wEvent1, wEvent2], [wEvent2], some wEvent1, []⟩ :=
    LoopStep.dequeue wEvent1 [wEvent1, wEvent2] [wEvent2] []
  have h4 : LoopStep (⟨[wEvent1, wEvent2], [wEvent2], some wEvent1, []⟩ : LoopState Unit)
      ⟨[wEvent1, wEvent2], [wEvent2], none, [wEvent1]⟩ :=
    LoopStep.finish wEvent1 [wEvent1, wEvent2] [wEvent2] []
  have hreach :
      LoopReachable (⟨[wEvent1, wEvent2], [wEvent2], none, [wEvent1]⟩ : LoopState Unit) :=
    Relation.ReflTransGen.tail
      (Relation.ReflTransGen.tail
        (Relation.ReflTransGen.tail (Relation.ReflTransGen.single h1) h2) h3) h4
  exact ⟨hreach, event_loop_fifo _ hreach⟩

/-! ## Agent status lifecycle (`BaseAgent.start/stop`, the loops) -/

/-- From `src/agents/base_agent.py`, `class AgentStatus(Enum)`. -/
inductive AgentStatus : Type where
  | idle
  | running
  | stopping
  | errored
  deriving DecidableEq, Repr

/-- The runtime operations of `BaseAgent` that can touch `self.status`:
`start` assigns `RUNNING` on entry, the `except*` branch of `start`
assigns `ERRORED` when a loop fault escapes, `stop` assigns `STOPPING`;
`push_event` and ordinary loop iterations never assign `status`. -/
inductive AgentOp : Type where
  | start
  | crash
  | stop
  | pushEvent
  | loopIter
  deriving DecidableEq, Repr

/-- Effect of one runtime operation on `self.status`, read off the
assignments in `base_agent.py`. -/
def stepStatus : AgentStatus → AgentOp → AgentStatus
  | _, .start => .running
  | _, .crash => .errored
  | _, .stop => .stopping
  | s, .pushEvent => s
  | s, .loopIter => s

/-- Run a sequence of runtime operations from a starting status. -/
def runOps (s : AgentStatus) (ops : List AgentOp) : AgentStatus :=
  ops.foldl stepStatus s

/-- Counterexample to claim C6: from `Running`, `stop()` reaches `Stopping`,
but the runtime operation `start()` — whose first statement is
`self.status = AgentStatus.RUNNING`, with no guard — then sets the status
back to `Running`: the claimed monotonicity over all runtime operations
including `start` fails. -/
theorem status_monotonic_cex :
    runOps AgentStatus.running [AgentOp.stop] = AgentStatus.stopping
    ∧ runOps AgentStatus.running [AgentOp.stop, AgentOp.start] = AgentStatus.running := by
  decide

/-- Amendment of claim C6: once an agent's status is `Stopping` or `Errored`, no
sequence of runtime operations that does not include a renewed `start()`
call (`stop`, `push_event`, loop iterations, a loop crash) ever brings the
status back to `Running` or `Idle`; only calling `start()` again does, and
nothing in the code prevents that. -/
theorem status_monotonic_amended (ops : List AgentOp) (hstart : AgentOp.start ∉ ops)
    (s : AgentStatus) (hs : s = AgentStatus.stopping ∨ s = AgentStatus.errored) :
    runOps s ops = AgentStatus.stopping ∨ runOps s ops = AgentStatus.errored := by
  induction ops generalizing s with
  | nil => simpa [runOps] using hs
  | cons op rest ih =>
    have hop : op ≠ AgentOp.start := fun h => hstart (h ▸ List.mem_cons_self op rest)
    have hrest : AgentOp.start ∉ rest := fun h => hstart (List.mem_cons_of_mem op h)
    have hnext : stepStatus s op = AgentStatus.stopping
        ∨ stepStatus s op = AgentStatus.errored := by
      cases op with
      | start => exact absurd rfl hop
      | crash => exact Or.inr rfl
      | stop => exact Or.inl rfl
      | pushEvent => exact hs
      | loopIter => exact hs
    simpa [runOps, List.foldl_cons] using ih hrest (stepStatus s op) hnext

/-- Witness for the amended C6: from `Stopping`, a crash, a stop, a push
and a loop iteration leave the status in `{Stopping, Errored}`. -/
theorem status_monotonic_amended_witness :
    runOps AgentStatus.stopping
        [AgentOp.pushEvent, AgentOp.loopIter, AgentOp.crash, AgentOp.stop]
      = AgentStatus.stopping
    ∨ runOps AgentStatus.stopping
        [AgentOp.pushEvent, AgentOp.loopIter, AgentOp.crash, AgentOp.stop]
      = AgentStatus.errored :=
  status_monotonic_amended
    [AgentOp.pushEvent, AgentOp.loopIter, AgentOp.crash, AgentOp.stop]
    (by decide) AgentStatus.stopping (Or.inl rfl)

/-! ## Poll loop resilience (`BaseAgent._poll_loop`)

Each iteration of `_poll_loop` runs `await self.poll()` inside
`try: … except Exception: logger.exception(…)`, then — outside the
`try` — sleeps the configured poll interval and iterates again.  The
successive outcomes of `self.poll()` drive the iterations; the loop's
observable actions are recorded in order. -/

/-- Observable actions of the poll loop. -/
inductive PollAction : Type where
  | pollOk
  | pollFaultLogged (e : PyErr)
  | slept (interval : ℚ)
  deriving DecidableEq, Repr

/-- Embedding of `BaseAgent._poll_loop`, driven by the list of successive `poll()`
outcomes while the status stays `Running`. -/
def pollLoopRun (interval : ℚ) : List (Except PyErr Unit) → List PollAction
  | [] => []
  | r :: rest =>
    (match r with
     | .ok _ => PollAction.pollOk
     | .error e => PollAction.pollFaultLogged e)
      :: PollAction.slept interval :: pollLoopRun interval rest

/-- Claim C8: a `poll()` cycle that raises does not terminate the poll loop
and does not escalate: the fault is caught and logged, the loop sleeps the
configured interval, and every subsequent cycle proceeds exactly as it
would have.  (`pollLoopRun` is total and never propagates a `PyErr`, so
no poll fault reaches the supervised group.) -/
theorem poll_loop_resilient (interval : ℚ) (pre post : List (Except PyErr Unit))
    (e : PyErr) :
    pollLoopRun interval (pre ++ Except.error e :: post)
      = pollLoopRun interval pre
        ++ PollAction.pollFaultLogged e
          :: PollAction.slept interval :: pollLoopRun interval post := by
  induction pre with
  | nil => rfl
  | cons r rest ih => cases r <;> simp [pollLoopRun, ih]

/-! ## Orchestrator: agent registry, config merge, event routing
(`src/orchestrator.py`) -/

/-- A Python `dict` read (`d.get(k)` / `d[k]`), on an association list
whose keys are unique (dict keys). -/
def pyDictGet {V : Type} (d : List (String × V)) (k : String) : Option V :=
  (d.find? (fun p => p.1 == k)).map (fun p => p.2)

/-- Python merge `{**a, **b}` as lookup — a binding in `b` wins,
`a` fills the rest. -/
def pyDictMerge {V : Type} (a b : String → Option V) : String → Option V :=
  fun k => (b k).or (a k)

/-- One entry of `config["agents"]` in `config/agents.yaml`, as read by
`Orchestrator._instantiate_agents`: `enabled` (default `True`), the
dotted `class` path, the per-agent `config` mapping (default `{}`), and
the top-level `poll_interval_seconds` (default `30`). -/
structure AgentCfg (V : Type) : Type where
  enabled : Option Bool
  className : String
  config : List (String × V)
  pollIntervalSeconds : Option V

/-- From `orchestrator.py` line 64:
`merged = {**defaults, **agent_cfg.get("config", {}),
**{"poll_interval_seconds": agent_cfg.get("poll_interval_seconds", 30)}}`.
`v30` embeds the literal default `30`. -/
def mergedConfig {V : Type} (defaults : List (String × V)) (cfg : AgentCfg V)
    (v30 : V) : String → Option V :=
  pyDictMerge (pyDictMerge (pyDictGet defaults) (pyDictGet cfg.config))
    (pyDictGet [("poll_interval_seconds", cfg.pollIntervalSeconds.getD v30)])

/-- Embedding of `Orchestrator._instantiate_agents`: iterate the configured agents in
order, skip an entry whose `enabled` is falsy, otherwise register the
agent under its name with the merged configuration passed to its
constructor. -/
def instantiateAgents {V : Type} (defaults : List (String × V)) (v30 : V) :
    List (String × AgentCfg V) → List (String × (String → Option V))
  | [] => []
  | (name, cfg) :: rest =>
    if cfg.enabled.getD true then
      (name, mergedConfig defaults cfg v30) :: instantiateAgents defaults v30 rest
    else
      instantiateAgents defaults v30 rest

/-- Embedding of `Orchestrator._route_event`: push the event into every registered
agent's queue (`for agent in self._agents.values(): agent.push_event(event)`).
The registry is modelled with each agent's queue contents. -/
def routeEvent {α : Type} (registry : List (String × List (Event α))) (e : Event α) :
    List (String × List (Event α)) :=
  registry.map (fun nq => (nq.1, nq.2 ++ [e]))

/-- A registered name comes from an entry whose `enabled` was truthy. -/
lemma instantiateAgents_name_enabled {V : Type} (defaults : List (String × V))
    (v30 : V) (agents : List (String × AgentCfg V)) (name : String)
    (h : name ∈ (instantiateAgents defaults v30 agents).map Prod.fst) :
    ∃ cfg, (name, cfg) ∈ agents ∧ cfg.enabled.getD true = true := by
  induction agents with
  | nil => simp [instantiateAgents] at h
  | cons nc rest ih =>
    obtain ⟨n, cfg⟩ := nc
    by_cases hen : cfg.enabled.getD true = true
    · simp only [instantiateAgents, hen, if_true, List.map_cons, List.mem_cons] at h
      rcases h with h | h
      · exact ⟨cfg, by simp [h], hen⟩
      · obtain ⟨c, hc, hce⟩ := ih h
        exact ⟨c, List.mem_cons_of_mem _ hc, hce⟩
    · simp only [instantiateAgents, hen, if_false] at h
      obtain ⟨c, hc, hce⟩ := ih h
      exact ⟨c, List.mem_cons_of_mem _ hc, hce⟩

/-- Claim C4: `route(event)` appends the event exactly once to the queue of
every agent in the registry — same names, each queue extended by exactly
one copy of the event — and an agent whose configuration entry is marked
`enabled: false` is never put into the registry at startup, hence never
receives a routed event. -/
theorem route_broadcast_exactly_once {α V : Type} [DecidableEq α]
    (registry : List (String × List (Event α))) (e : Event α)
    (defaults : List (String × V)) (v30 : V)
    (agents : List (String × AgentCfg V)) (name : String)
    (hdis : ∀ cfg, (name, cfg) ∈ agents → cfg.enabled = some false) :
    (routeEvent registry e).map Prod.fst = registry.map Prod.fst
    ∧ (∀ i (hi : i < registry.length),
        (routeEvent registry e).get ⟨i, by simpa [routeEvent] using hi⟩
          = ((registry.get ⟨i, hi⟩).1, (registry.get ⟨i, hi⟩).2 ++ [e]))
    ∧ (∀ i (hi : i < registry.length),
        ((routeEvent registry e).get ⟨i, by simpa [routeEvent] using hi⟩).2.count e
          = ((registry.get ⟨i, hi⟩).2).count e + 1)
    ∧ name ∉ (instantiateAgents defaults v30 agents).map Prod.fst := by
  have hget : ∀ i (hi : i < registry.length),
      (routeEvent registry e).get ⟨i, by simpa [routeEvent] using hi⟩
        = ((registry.get ⟨i, hi⟩).1, (registry.get ⟨i, hi⟩).2 ++ [e]) := by
    intro i hi
    simp [routeEvent, List.get_map]
  refine ⟨?_, hget, ?_, ?_⟩
  · simp [routeEvent, Function.comp]
  · intro i hi
    rw [hget i hi]
    simp [List.count_append]
  · intro hmem
    obtain ⟨cfg, hc, hce⟩ := instantiateAgents_name_enabled defaults v30 agents name hmem
    rw [hdis cfg hc] at hce
    simp [Option.getD] at hce

/-- Witness for C4: a two-agent registry, one routed event, and a config
in which agent `"reviewer"` is disabled. -/
theorem route_broadcast_exactly_once_witness :
    (routeEvent [("pm", ([] : List (Event Unit))), ("dev", [wEvent1])] wEvent2).map Prod.fst
        = [("pm", ([] : List (Event Unit))), ("dev", [wEvent1])].map Prod.fst
    ∧ "reviewer" ∉ (instantiateAgents ([] : List (String × Nat)) 30
        [("pm", ⟨some true, "src.agents.product_manager.ProductManagerAgent", [], none⟩),
         ("reviewer", ⟨some false, "src.agents.reviewer.ReviewerAgent", [], none⟩)]).map
        Prod.fst := by
  have h := route_broadcast_exactly_once
    [("pm", ([] : List (Event Unit))), ("dev", [wEvent1])] wEvent2
    ([] : List (String × Nat)) 30
    [("pm", ⟨some true, "src.agents.product_manager.ProductManagerAgent", [], none⟩),
     ("reviewer", ⟨some false, "src.agents.reviewer.ReviewerAgent", [], none⟩)]
    "reviewer"
    (by
      intro cfg hc
      simp only [List.mem_cons, List.not_mem_nil, or_false] at hc
      rcases hc with hc | hc
      · simpa using congrArg Prod.fst hc
      · have hcfg : cfg = ⟨some false, "src.agents.reviewer.ReviewerAgent", [], none⟩ :=
          congrArg Prod.snd hc
        rw [hcfg])
  exact ⟨h.1, h.2.2.2⟩

/-- Counterexample to claim C7: with `poll_interval_seconds: 60` in the
defaults layer and no per-agent value anywhere, the merged configuration
gives `poll_interval_seconds = 30` (the hard-coded top-level default),
not the defaults-layer value `60`: the defaults layer does *not* fill
`poll_interval_seconds`. -/
theorem config_merge_cex :
    mergedConfig [("poll_interval_seconds", (60 : Nat))]
        (⟨none, "src.agents.developer.DeveloperAgent", [], none⟩ : AgentCfg Nat) 30
        "poll_interval_seconds" = some 30
    ∧ pyDictGet [("poll_interval_seconds", (60 : Nat))] "poll_interval_seconds"
        = some 60 := by
  constructor <;> rfl

/-- Amendment of claim C7: for every key other than `poll_interval_seconds`, the
merged configuration passed to an enabled agent's constructor maps the
key to the per-agent `config` override when present and otherwise to the
defaults-layer value; but `poll_interval_seconds` is always taken from
the agent entry's top-level `poll_interval_seconds` (default `30`),
overriding both the defaults layer and the per-agent `config` mapping.
Every enabled agent is registered with exactly this merged
configuration. -/
theorem config_merge_amended {V : Type} (defaults : List (String × V))
    (cfg : AgentCfg V) (v30 : V) (agents : List (String × AgentCfg V)) :
    (∀ k, k ≠ "poll_interval_seconds" →
      mergedConfig defaults cfg v30 k
        = (pyDictGet cfg.config k).or (pyDictGet defaults k))
    ∧ mergedConfig defaults cfg v30 "poll_interval_seconds"
        = some (cfg.pollIntervalSeconds.getD v30)
    ∧ (∀ name, (name, cfg) ∈ agents → cfg.enabled.getD true = true →
        (name, mergedConfig defaults cfg v30) ∈ instantiateAgents defaults v30 agents) := by
  refine ⟨?_, rfl, ?_⟩
  · intro k hk
    have hbeq : ("poll_interval_seconds" == k) = false := by
      simp [Ne.symm hk]
    simp [mergedConfig, pyDictMerge, pyDictGet, List.find?, hbeq]
  · intro name hmem hen
    induction agents with
    | nil => simp at hmem
    | cons nc rest ih =>
      rcases List.mem_cons.mp hmem with h | h
      · rw [← h]
        simp [instantiateAgents, hen]
      · obtain ⟨n, c⟩ := nc
        by_cases he : c.enabled.getD true = true
        · simp only [instantiateAgents, he, if_true]
          exact List.mem_cons_of_mem _ (ih h)
        · simp only [instantiateAgents, he, if_false]
          exact ih h

/-- Witness for the amended C7: defaults supply `retries`, the per-agent
config overrides `team`, and `poll_interval_seconds` comes from the
agent's top-level field. -/
theorem config_merge_amended_witness :
    mergedConfig [("retries", (3 : Nat)), ("team", 1)]
        (⟨some true, "src.agents.product_manager.ProductManagerAgent",
          [("team", 2)], some 10⟩ : AgentCfg Nat) 30 "team" = some 2
    ∧ mergedConfig [("retries", (3 : Nat)), ("team", 1)]
        (⟨some true, "src.agents.product_manager.ProductManagerAgent",
          [("team", 2)], some 10⟩ : AgentCfg Nat) 30 "retries" = some 3
    ∧ mergedConfig [("retries", (3 : Nat)), ("team", 1)]
        (⟨some true, "src.agents.product_manager.ProductManagerAgent",
          [("team", 2)], some 10⟩ : AgentCfg Nat) 30 "poll_interval_seconds"
        = some 10 := by
  have h := config_merge_amended [("retries", (3 : Nat)), ("team", 1)]
    (⟨some true, "src.agents.product_manager.ProductManagerAgent",
      [("team", 2)], some 10⟩ : AgentCfg Nat) 30 []
  exact ⟨(h.1 "team" (by decide)).trans rfl, (h.1 "retries" (by decide)).trans rfl, h.2.1⟩

/-! ## Capability bundle and external clients (`src/tools/…`)

The tool clients are plain async HTTP wrappers around fixed remote APIs;
their observable behaviour at the interface the agents call is a response
per call, which may also fail (`raise`).  Each client is therefore a
record of response functions, and the `ToolBox` holds each client
optionally, exactly as `Orchestrator._build_toolbox` constructs it from
independently optional credentials. -/

/-- One workflow state as returned by `LinearClient.get_workflow_states`
(the fields `_cache_team_metadata` reads). -/
structure WorkflowState : Type where
  id : String
  name : String
  deriving DecidableEq, Repr

/-- An issue as returned by `LinearClient.create_issue` (fields
`id identifier title url`). -/
structure LinearIssue : Type where
  id : String
  identifier : String
  title : String
  url : String
  deriving DecidableEq, Repr

/-- A ticket dict as returned by `LinearClient.get_assigned_issues` and
consumed by `DeveloperAgent`.  Each field is the corresponding dict key;
`none` means the key is absent (so `ticket["k"]` raises `KeyError`).
`labelNames` collects `ticket["labels"]["nodes"][i]["name"]`. -/
structure TicketPayload : Type where
  id : Option String
  identifier : Option String
  title : Option String
  description : Option String
  labelNames : List String
  deriving DecidableEq, Repr

/-- Response model of `src/tools/linear_client.py`. -/
structure LinearClient : Type where
  get_team_id : String → Except PyErr String
  get_workflow_states : String → Except PyErr (List WorkflowState)
  create_issue : String → String → String → Nat → Option String → Except PyErr LinearIssue
  get_assigned_issues : String → String → Except PyErr (List TicketPayload)

/-- A pull request as returned by `GitHubClient.create_pull_request`
(fields `number`, `html_url`). -/
structure PullRequest : Type where
  number : Nat
  html_url : String
  deriving DecidableEq, Repr

/-- Response model of `src/tools/github_client.py`:
`create_pull_request(owner, repo, title, head, base, body)`. -/
structure GitHubClient : Type where
  create_pull_request : String → String → String → String → String → String →
    Except PyErr PullRequest

/-- Response model of `src/tools/slack_client.py`:
`post_message(channel, text)`. -/
structure SlackClient : Type where
  post_message : String → String → Except PyErr Unit

/-- From `src/agents/base_agent.py`, class `ToolBox`: each client is
independently optional. -/
structure ToolBox : Type where
  linear : Option LinearClient
  github : Option GitHubClient
  slack : Option SlackClient

/-- Python `d[k]` on an optional dict field: raises `KeyError` when absent. -/
def pyKey {β : Type} (v : Option β) (k : String) : Except PyErr β :=
  match v with
  | some x => Except.ok x
  | none => Except.error (PyErr.keyError k)

/-! ## ProductManagerAgent (`src/agents/product_manager.py`) -/

/-- One entry of `payload["breakdown"]` in `_process_idea`. -/
structure TaskSpec : Type where
  title : Option String
  description : Option String
  priority : Option Nat
  deriving DecidableEq, Repr

/-- The payload dict fields read by `ProductManagerAgent.handle_event`
(`_process_idea` and `_triage_feedback`); `none` = key absent. -/
structure PMPayload : Type where
  title : Option String
  description : Option String
  breakdown : List TaskSpec
  slack_channel : Option String
  summary : Option String
  body : Option String
  priority : Option Nat
  deriving DecidableEq, Repr

/-- Mutable state of a `ProductManagerAgent`: the cached
`_team_id` and `_workflow_states` (name → id). -/
structure PMState : Type where
  team_id : Option String
  workflow_states : List (String × String)

/-- Embedding of `ProductManagerAgent.poll`: cache team metadata once, only when the
Linear capability is present; never pushes an event.  The returned list
records the `push_event` calls made during the cycle (there are none). -/
def pmPoll (tools : ToolBox) (teamKey : String) (s : PMState) :
    Except PyErr (PMState × List (Event PMPayload)) :=
  match s.team_id with
  | none =>
    match tools.linear with
    | some lc => do
      let tid ← lc.get_team_id teamKey
      let states ← lc.get_workflow_states tid
      Except.ok (⟨some tid, states.map (fun st => (st.name, st.id))⟩, [])
    | none => Except.ok (s, [])
  | some _ => Except.ok (s, [])

/-- Embedding of `ProductManagerAgent._process_idea`.  The leading
`assert self.tools.linear and self._team_id` raises `AssertionError`
when the Linear handle is `None` (or the cached team id is falsy). -/
def processIdea (tools : ToolBox) (defaultPriority : Nat) (teamId : Option String)
    (payload : PMPayload) : Except PyErr Unit :=
  match tools.linear, teamId with
  | some lc, some tid =>
    if tid.isEmpty then Except.error PyErr.assertionError
    else do
      let title ← pyKey payload.title "title"
      let description := payload.description.getD ""
      let epic ← lc.create_issue tid ("[Epic] " ++ title)
        ("## Overview\n\n" ++ description) defaultPriority none
      let _ ← payload.breakdown.foldlM
        (fun (_ : Unit) task => do
          let ttitle ← pyKey task.title "title"
          let _ ← lc.create_issue tid ttitle (task.description.getD "")
            (task.priority.getD defaultPriority) (some epic.id)
          pure ())
        ()
      match tools.slack, payload.slack_channel with
      | some sc, some channel =>
        if channel.isEmpty then pure ()
        else
          sc.post_message channel
            ("New epic created: *" ++ epic.identifier ++ "* — " ++ title
              ++ "\n" ++ epic.url)
      | _, _ => pure ()
  | _, _ => Except.error PyErr.assertionError

/-- Embedding of `ProductManagerAgent._triage_feedback`, with the same leading
assertion. -/
def triageFeedback (tools : ToolBox) (teamId : Option String)
    (payload : PMPayload) : Except PyErr Unit :=
  match tools.linear, teamId with
  | some lc, some tid =>
    if tid.isEmpty then Except.error PyErr.assertionError
    else do
      let _ ← lc.create_issue tid
        ("[Feedback] " ++ (payload.summary.getD "User feedback"))
        (payload.body.getD "") (payload.priority.getD 4) none
      pure ()
  | _, _ => Except.error PyErr.assertionError

/-- Embedding of `ProductManagerAgent.handle_event`: match on the event kind; other
kinds are logged and ignored. -/
def pmHandleEvent (tools : ToolBox) (defaultPriority : Nat) (s : PMState)
    (e : Event PMPayload) : Except PyErr Unit :=
  match e.kind with
  | "idea_submitted" => processIdea tools defaultPriority s.team_id e.payload
  | "feedback_received" => triageFeedback tools s.team_id e.payload
  | _ => Except.ok ()

/-! ## DeveloperAgent (`src/agents/developer.py`) -/

/-- The configuration values `DeveloperAgent.__init__` reads
(`branchPfx` embeds `config.get("branch_prefix", "ai/")`). -/
structure DevConfig : Type where
  github_org : String
  branchPfx : String
  auto_pr : Bool
  max_concurrent : Nat

/-- Mutable state of a `DeveloperAgent`: `_active_tickets` (a Python
set of ticket ids) and `_assignee_id`. -/
structure DevState : Type where
  active_tickets : List String
  assignee_id : Option String

/-- Python `set.add` (membership is all the code observes). -/
def setAdd (l : List String) (x : String) : List String :=
  if x ∈ l then l else x :: l

/-- Python `set.discard`. -/
def setDiscard (l : List String) (x : String) : List String := l.erase x

/-- Result of the `claude` subprocess spawned by `_run_claude_code`
(environmental input). -/
structure ClaudeProc : Type where
  returncode : Int
  stdout : String
  stderr : String

/-- Embedding of `DeveloperAgent._run_claude_code`: raises `RuntimeError` on a
non-zero exit code. -/
def runClaudeCode (proc : ClaudeProc) : Except PyErr Unit :=
  if proc.returncode ≠ 0 then
    Except.error (PyErr.runtimeError
      ("Claude Code exited with " ++ toString proc.returncode ++ ": "
        ++ proc.stderr.take 500))
  else Except.ok ()

/-- Embedding of `DeveloperAgent._infer_repo`: first label named `repo:…` wins,
otherwise the fixed fallback repository. -/
def inferRepo (labelNames : List String) : String :=
  match labelNames.find? (fun n => n.startsWith "repo:") with
  | some n => n.drop 5
  | none => "ai-company-framework"

/-- Embedding of `DeveloperAgent._format_pr_body`, over the already-read ticket
fields. -/
def formatPrBody (identifier title description : String) : String :=
  "## " ++ identifier ++ ": " ++ title ++ "\n\n" ++ description
    ++ "\n\n---\n*Automatically generated by AI Developer Agent*"

/-- Embedding of `DeveloperAgent._work_on_ticket`.  Returns the new `_active_tickets`
and the call's outcome.  Note the exact fault structure of the source:
`ticket["id"]`, `ticket["identifier"]` and the `logger.info` reading
`ticket["title"]` all run *before* the `try`, so their `KeyError`s
propagate (and, for `"title"`, after the id was already added to
`_active_tickets`, before the `finally` that would discard it exists);
everything inside the `try` is caught by `except Exception` and the
`finally` discards the id. -/
def workOnTicket (tools : ToolBox) (cfg : DevConfig) (proc : ClaudeProc)
    (active : List String) (t : TicketPayload) :
    List String × Except PyErr Unit :=
  match t.id with
  | none => (active, Except.error (PyErr.keyError "id"))
  | some tid =>
    match t.identifier with
    | none => (active, Except.error (PyErr.keyError "identifier"))
    | some identifier =>
      if tid ∈ active then (active, Except.ok ())
      else
        let active1 := setAdd active tid
        match t.title with
        | none => (active1, Except.error (PyErr.keyError "title"))
        | some title =>
          let inner : Except PyErr Unit := do
            let branch := cfg.branchPfx ++ identifier.toLower
            let repo := inferRepo t.labelNames
            let _ ← runClaudeCode proc
            if cfg.auto_pr then
              match tools.github with
              | some gh => do
                let pr ← gh.create_pull_request cfg.github_org repo
                  (identifier ++ ": " ++ title) branch "main"
                  (formatPrBody identifier title (t.description.getD ""))
                match tools.slack with
                | some sc =>
                  sc.post_message "engineering"
                    ("PR opened for *" ++ identifier ++ "*: " ++ pr.html_url)
                | none => pure ()
              | none => pure ()
            else pure ()
          match inner with
          | Except.ok _ => (setDiscard active1 tid, Except.ok ())
          | Except.error _ => (setDiscard active1 tid, Except.ok ())

/-- Embedding of `DeveloperAgent.handle_event`. -/
def devHandleEvent (tools : ToolBox) (cfg : DevConfig) (proc : ClaudeProc)
    (s : DevState) (e : Event TicketPayload) : DevState × Except PyErr Unit :=
  match e.kind with
  | "ticket_assigned" =>
    let r := workOnTicket tools cfg proc s.active_tickets e.payload
    (⟨r.1, s.assignee_id⟩, r.2)
  | "pr_review_requested" => (s, Except.ok ())
  | _ => (s, Except.ok ())

/-- Embedding of `DeveloperAgent.poll`: a no-op unless both the Linear capability and
an assignee id are present and capacity remains; otherwise fetches `Todo`
tickets and pushes a `ticket_assigned` event for each inactive one. -/
def devPoll (tools : ToolBox) (cfg : DevConfig) (s : DevState) :
    Except PyErr (DevState × List (Event TicketPayload)) :=
  match tools.linear with
  | none => Except.ok (s, [])
  | some lc =>
    match s.assignee_id with
    | none => Except.ok (s, [])
    | some aid =>
      if aid.isEmpty then Except.ok (s, [])
      else if cfg.max_concurrent ≤ s.active_tickets.length then Except.ok (s, [])
      else do
        let tickets ← lc.get_assigned_issues aid "Todo"
        let evs ← tickets.foldlM
          (fun (acc : List (Event TicketPayload)) t => do
            let tid ← pyKey t.id "id"
            if tid ∈ s.active_tickets then pure acc
            else pure (acc ++ [⟨"ticket_assigned", "poll", t⟩]))
          []
        Except.ok (s, evs)

/-- A capability bundle with no credentials at all. -/
def noTools : ToolBox := ⟨none, none, none⟩

/-- The empty idea/feedback payload dict. -/
def emptyPMPayload : PMPayload := ⟨none, none, [], none, none, none, none⟩

/-- Counterexample to claim C3: with the issue-tracker capability absent,
`ProductManagerAgent.handle_event` on an `idea_submitted` event does
*not* complete without raising: the `assert self.tools.linear and
self._team_id` in `_process_idea` raises `AssertionError` instead of
skipping the dependent work. -/
theorem capability_absent_cex :
    pmHandleEvent noTools 3 ⟨none, []⟩ ⟨"idea_submitted", "linear", emptyPMPayload⟩
      = Except.error PyErr.assertionError := rfl

/-- Amendment of claim C3: with the issue-tracker capability absent, `poll()`
of both concrete agents completes as a no-op — no state change, no event
pushed, no fault raised; but `handle_event` on a capability-dependent
kind (`idea_submitted`, `feedback_received`) raises `AssertionError`
rather than skipping the dependent work (`handle_event` on other kinds
still completes without raising). -/
theorem capability_absent_poll_noop (tools : ToolBox) (hlin : tools.linear = none)
    (teamKey : String) (s : PMState) (cfg : DevConfig) (d : DevState)
    (defaultPriority : Nat) (payload : PMPayload) (src : String) :
    pmPoll tools teamKey s = Except.ok (s, [])
    ∧ devPoll tools cfg d = Except.ok (d, [])
    ∧ pmHandleEvent tools defaultPriority s ⟨"idea_submitted", src, payload⟩
        = Except.error PyErr.assertionError
    ∧ pmHandleEvent tools defaultPriority s ⟨"feedback_received", src, payload⟩
        = Except.error PyErr.assertionError
    ∧ pmHandleEvent tools defaultPriority s ⟨"linear_issue_created", src, payload⟩
        = Except.ok () := by
  refine ⟨?_, ?_, ?_, ?_, rfl⟩
  · cases hteam : s.team_id with
    | none => simp only [pmPoll, hteam, hlin]
    | some tid => simp only [pmPoll, hteam]
  · simp only [devPoll, hlin]
  · simp only [pmHandleEvent, processIdea, hlin]
  · simp only [pmHandleEvent, triageFeedback, hlin]

/-- Witness for the amended C3: the empty capability bundle, concrete
states and payloads. -/
theorem capability_absent_poll_noop_witness :
    pmPoll noTools "ENG" ⟨none, []⟩ = Except.ok (⟨none, []⟩, [])
    ∧ devPoll noTools ⟨"org", "ai/", true, 2⟩ ⟨[], none⟩ = Except.ok (⟨[], none⟩, [])
    ∧ pmHandleEvent noTools 3 ⟨none, []⟩ ⟨"idea_submitted", "linear", emptyPMPayload⟩
        = Except.error PyErr.assertionError
    ∧ pmHandleEvent noTools 3 ⟨none, []⟩ ⟨"feedback_received", "linear", emptyPMPayload⟩
        = Except.error PyErr.assertionError
    ∧ pmHandleEvent noTools 3 ⟨none, []⟩ ⟨"linear_issue_created", "linear", emptyPMPayload⟩
        = Except.ok () :=
  capability_absent_poll_noop noTools rfl "ENG" ⟨none, []⟩ ⟨"org", "ai/", true, 2⟩
    ⟨[], none⟩ 3 emptyPMPayload "linear"

/-- The empty ticket payload dict. -/
def emptyTicket : TicketPayload := ⟨none, none, none, none, []⟩

/-- A successful `claude` subprocess run. -/
def okProc : ClaudeProc := ⟨0, "", ""⟩

/-- Counterexample to claim C10: `DeveloperAgent.handle_event` *can* raise for
a `ticket_assigned` event: `ticket["id"]` is read before the `try` of
`_work_on_ticket`, so a payload without an `"id"` key raises `KeyError`
out of `handle_event` on the first dispatch attempt. -/
theorem dev_handle_never_raises_cex :
    (devHandleEvent noTools ⟨"org", "ai/", true, 2⟩ okProc ⟨[], none⟩
        ⟨"ticket_assigned", "poll", emptyTicket⟩).2
      = Except.error (PyErr.keyError "id") := rfl

/-- Amendment of claim C10: for a `ticket_assigned` event whose payload has the
`"id"`, `"identifier"` and `"title"` keys (the accesses that precede the
`try`) and whose ticket is not already active, `handle_event` never
raises — `_work_on_ticket` catches every exception from the work itself —
so dispatch resolves as a success on the first attempt with exactly one
invocation and no backoff, and the ticket id is absent from
`_active_tickets` after handling finishes whether the work succeeded or
failed. -/
theorem dev_handle_ticket_assigned_ok (tools : ToolBox) (cfg : DevConfig)
    (proc : ClaudeProc) (s : DevState) (src : String) (t : TicketPayload)
    (tid idf ttl : String) (hid : t.id = some tid) (hidf : t.identifier = some idf)
    (httl : t.title = some ttl) (hact : tid ∉ s.active_tickets) :
    (devHandleEvent tools cfg proc s ⟨"ticket_assigned", src, t⟩).2 = Except.ok ()
    ∧ (devHandleEvent tools cfg proc s ⟨"ticket_assigned", src, t⟩).1.active_tickets
        = s.active_tickets
    ∧ tid ∉ (devHandleEvent tools cfg proc s ⟨"ticket_assigned", src, t⟩).1.active_tickets
    ∧ ∀ m, 1 ≤ m → ∀ b,
        (dispatchEvent m b (fun _ =>
            (devHandleEvent tools cfg proc s ⟨"ticket_assigned", src, t⟩).2.isOk))
          = ⟨1, true, []⟩ := by
  have hwork : workOnTicket tools cfg proc s.active_tickets t
      = (s.active_tickets, Except.ok ()) := by
    have hmem : (tid ∈ s.active_tickets) = False := by simp [hact]
    have herase : (setAdd s.active_tickets tid).erase tid = s.active_tickets := by
      simp only [setAdd, if_neg hact]
      exact List.erase_cons_head tid s.active_tickets
    cases hinner : (do
        let _ ← runClaudeCode proc
        if cfg.auto_pr then
          match tools.github with
          | some gh => do
            let pr ← gh.create_pull_request cfg.github_org (inferRepo t.labelNames)
              (idf ++ ": " ++ ttl) (cfg.branchPfx ++ idf.toLower) "main"
              (formatPrBody idf ttl (t.description.getD ""))
            match tools.slack with
            | some sc =>
              sc.post_message "engineering"
                ("PR opened for *" ++ idf ++ "*: " ++ pr.html_url)
            | none => pure ()
          | none => pure ()
        else pure () : Except PyErr Unit) with
    | ok u =>
      simp [workOnTicket, hid, hidf, httl, hact, setDiscard, herase, hinner]
    | error e =>
      simp [workOnTicket, hid, hidf, httl, hact, setDiscard, herase, hinner]
  have hhandle : devHandleEvent tools cfg proc s ⟨"ticket_assigned", src, t⟩
      = (⟨s.active_tickets, s.assignee_id⟩, Except.ok ()) := by
    simp [devHandleEvent, hwork]
  refine ⟨by rw [hhandle], by rw [hhandle], by rw [hhandle]; exact hact, ?_⟩
  intro m hm b
  have hok : (fun (_ : Nat) =>
      (devHandleEvent tools cfg proc s ⟨"ticket_assigned", src, t⟩).2.isOk) 1 = true := by
    rw [hhandle]
    rfl
  have := dispatchLoop_succeed_at b
    (fun _ => (devHandleEvent tools cfg proc s ⟨"ticket_assigned", src, t⟩).2.isOk)
    m m 1 1 le_rfl (by omega) (by omega)
    (fun k hk1 hk2 => absurd hk2 (by omega)) hok
  rw [dispatchEvent, this]
  rfl

/-- Witness for the amended C10: a complete ticket payload, empty
capability bundle, successful subprocess, fresh state. -/
theorem dev_handle_ticket_assigned_ok_witness :
    (devHandleEvent noTools ⟨"org", "ai/", true, 2⟩ okProc ⟨[], none⟩
        ⟨"ticket_assigned", "poll",
          ⟨some "T1", some "ENG-1", some "Fix parser", none, []⟩⟩).2 = Except.ok ()
    ∧ "T1" ∉ (devHandleEvent noTools ⟨"org", "ai/", true, 2⟩ okProc ⟨[], none⟩
        ⟨"ticket_assigned", "poll",
          ⟨some "T1", some "ENG-1", some "Fix parser", none, []⟩⟩).1.active_tickets
    ∧ dispatchEvent 3 5 (fun _ =>
        (devHandleEvent noTools ⟨"org", "ai/", true, 2⟩ okProc ⟨[], none⟩
          ⟨"ticket_assigned", "poll",
            ⟨some "T1", some "ENG-1", some "Fix parser", none, []⟩⟩).2.isOk)
        = ⟨1, true, []⟩ := by
  have h := dev_handle_ticket_assigned_ok noTools ⟨"org", "ai/", true, 2⟩ okProc
    ⟨[], none⟩ "poll" ⟨some "T1", some "ENG-1", some "Fix parser", none, []⟩
    "T1" "ENG-1" "Fix parser" rfl rfl rfl (by simp)
  exact ⟨h.1, h.2.2.1, h.2.2.2 3 (by decide) 5⟩

/-! ## Ingress gateway: GitHub webhook authentication
(`src/webhook_server.py`)

`_verify_signature` computes `hmac.new(secret.encode(), payload,
hashlib.sha256).hexdigest()` and compares `f"sha256={expected}"` with the
`X-Hub-Signature-256` header (`hmac.compare_digest` is a constant-time
string equality).  SHA-256 (FIPS 180-4) and HMAC (RFC 2104) are embedded
below over byte lists, with 32-bit words as `Nat` reduced `% 2^32`. -/

/-- Right rotation of a 32-bit word. -/
def rotr32 (n x : Nat) : Nat := ((x >>> n) ||| (x <<< (32 - n))) % 4294967296

/-- SHA-256 small sigma 0. -/
def ssig0 (x : Nat) : Nat := (rotr32 7 x) ^^^ (rotr32 18 x) ^^^ (x >>> 3)

/-- SHA-256 small sigma 1. -/
def ssig1 (x : Nat) : Nat := (rotr32 17 x) ^^^ (rotr32 19 x) ^^^ (x >>> 10)

/-- SHA-256 round constants (FIPS 180-4 §4.2.2, written in decimal). -/
def sha256K : List Nat :=
  [1116352408, 1899447441, 3049323471, 3921009573, 961987163, 1508970993,
   2453635748, 2870763221, 3624381080, 310598401, 607225278, 1426881987,
   1925078388, 2162078206, 2614888103, 3248222580, 3835390401, 4022224774,
   264347078, 604807628, 770255983, 1249150122, 1555081692, 1996064986,
   2554220882, 2821834349, 2952996808, 3210313671, 3336571891, 3584528711,
   113926993, 338241895, 666307205, 773529912, 1294757372, 1396182291,
   1695183700, 1986661051, 2177026350, 2456956037, 2730485921, 2820302411,
   3259730800, 3345764771, 3516065817, 3600352804, 4094571909, 275423344,
   430227734, 506948616, 659060556, 883997877, 958139571, 1322822218,
   1537002063, 1747873779, 1955562222, 2024104815, 2227730452, 2361852424,
   2428436474, 2756734187, 3204031479, 3329325298]

/-- SHA-256 initial hash value (FIPS 180-4 §5.3.3, written in decimal). -/
def sha256H0 : List Nat :=
  [1779033703, 3144134277, 1013904242, 2773480762,
   1359893119, 2600822924, 528734635, 1541459225]

/-- Pad a byte message per FIPS 180-4: append `0x80`, zeros to 56 mod 64,
then the bit length as 8 big-endian bytes. -/
def sha256Pad (msg : List Nat) : List Nat :=
  let len := msg.length
  let bitLen := len * 8
  let padZeros := (119 - len % 64) % 64
  msg ++ 0x80 :: List.replicate padZeros 0
    ++ [bitLen / 72057594037927936 % 256, bitLen / 281474976710656 % 256,
        bitLen / 1099511627776 % 256, bitLen / 4294967296 % 256,
        bitLen / 16777216 % 256, bitLen / 65536 % 256,
        bitLen / 256 % 256, bitLen % 256]

/-- Group bytes into big-endian 32-bit words. -/
def bytesToWords : List Nat → List Nat
  | b0 :: b1 :: b2 :: b3 :: rest =>
    (((b0 * 256 + b1) * 256 + b2) * 256 + b3) :: bytesToWords rest
  | _ => []

/-- Split a padded word stream into 16-word blocks. -/
def splitBlocks : List Nat → List (List Nat)
  | w0 :: w1 :: w2 :: w3 :: w4 :: w5 :: w6 :: w7
      :: w8 :: w9 :: w10 :: w11 :: w12 :: w13 :: w14 :: w15 :: rest =>
    [w0, w1, w2, w3, w4, w5, w6, w7, w8, w9, w10, w11, w12, w13, w14, w15]
      :: splitBlocks rest
  | _ => []

/-- Extend a 16-word block to the 64-word message schedule. -/
def msgSchedule (block : List Nat) : List Nat :=
  ((List.range 48).foldl
    (fun a _ =>
      let t := a.size
      a.push ((ssig1 (a.getD (t - 2) 0) + a.getD (t - 7) 0
        + ssig0 (a.getD (t - 15) 0) + a.getD (t - 16) 0) % 4294967296))
    block.toArray).toList

/-- One SHA-256 round, on the working variables `(a,b,c,d,e,f,g,h)` with
the round constant and schedule word. -/
def sha256Round (st : Nat × Nat × Nat × Nat × Nat × Nat × Nat × Nat)
    (kw : Nat × Nat) : Nat × Nat × Nat × Nat × Nat × Nat × Nat × Nat :=
  match st, kw with
  | (a, b, c, d, e, f, g, h), (k, w) =>
    let s1 := (rotr32 6 e) ^^^ (rotr32 11 e) ^^^ (rotr32 25 e)
    let ch := (e &&& f) ^^^ ((e ^^^ 4294967295) &&& g)
    let temp1 := (h + s1 + ch + k + w) % 4294967296
    let s0 := (rotr32 2 a) ^^^ (rotr32 13 a) ^^^ (rotr32 22 a)
    let maj := (a &&& b) ^^^ (a &&& c) ^^^ (b &&& c)
    let temp2 := (s0 + maj) % 4294967296
    ((temp1 + temp2) % 4294967296, a, b, c, (d + temp1) % 4294967296, e, f, g)

/-- SHA-256 compression of one block into the running hash. -/
def sha256Compress (h : List Nat) (block : List Nat) : List Nat :=
  let w := msgSchedule block
  let init := (h.getD 0 0, h.getD 1 0, h.getD 2 0, h.getD 3 0,
    h.getD 4 0, h.getD 5 0, h.getD 6 0, h.getD 7 0)
  match (sha256K.zip w).foldl sha256Round init with
  | (a, b, c, d, e, f, g, hh) =>
    [(h.getD 0 0 + a) % 4294967296, (h.getD 1 0 + b) % 4294967296,
     (h.getD 2 0 + c) % 4294967296, (h.getD 3 0 + d) % 4294967296,
     (h.getD 4 0 + e) % 4294967296, (h.getD 5 0 + f) % 4294967296,
     (h.getD 6 0 + g) % 4294967296, (h.getD 7 0 + hh) % 4294967296]

/-- SHA-256 of a byte list, as 32 bytes. -/
def sha256 (msg : List Nat) : List Nat :=
  let blocks := splitBlocks (bytesToWords (sha256Pad msg))
  let hfinal := blocks.foldl sha256Compress sha256H0
  hfinal.flatMap (fun w =>
    [w / 16777216 % 256, w / 65536 % 256, w / 256 % 256, w % 256])

/-- HMAC-SHA256 (RFC 2104), as `hmac.new(key, msg, hashlib.sha256)`
computes it: hash an over-long key, zero-pad to the 64-byte block size,
then `H((k ⊕ opad) ‖ H((k ⊕ ipad) ‖ msg))`. -/
def hmacSha256 (key msg : List Nat) : List Nat :=
  let k0 := if 64 < key.length then sha256 key else key
  let k1 := k0 ++ List.replicate (64 - k0.length) 0
  let ipadded := k1.map (fun b => b ^^^ 0x36)
  let opadded := k1.map (fun b => b ^^^ 0x5c)
  sha256 (opadded ++ sha256 (ipadded ++ msg))

/-- Lower-case hex digit. -/
def hexChar (n : Nat) : Char :=
  if n < 10 then Char.ofNat (48 + n) else Char.ofNat (87 + n)

/-- Python `.hexdigest()`: lower-case hex string of a byte list. -/
def bytesToHex (bs : List Nat) : String :=
  String.mk (bs.flatMap (fun b => [hexChar (b / 16), hexChar (b % 16)]))

/-- UTF-8 encoding of one character (Python `str.encode()`). -/
def encodeChar (c : Char) : List Nat :=
  let n := c.toNat
  if n < 128 then [n]
  else if n < 2048 then [192 + n / 64, 128 + n % 64]
  else if n < 65536 then [224 + n / 4096, 128 + n / 64 % 64, 128 + n % 64]
  else [240 + n / 262144, 128 + n / 4096 % 64, 128 + n / 64 % 64, 128 + n % 64]

/-- UTF-8 bytes of a string (Python `str.encode()`). -/
def strBytes (s : String) : List Nat := s.data.flatMap encodeChar

/-- Embedding of `_verify_signature(payload, signature, secret)`:
`hmac.compare_digest(f"sha256={expected}", signature)` where `expected`
is the hex HMAC-SHA256 digest of the raw body under the secret. -/
def verifySignature (payload : List Nat) (signature : String) (secret : String) :
    Bool :=
  ("sha256=" ++ bytesToHex (hmacSha256 (strBytes secret) payload)) == signature

/-- Event-kind derivation of the GitHub endpoint:
`f"github_{x_github_event}"`, suffixed with `_{action}` when the parsed
body's `action` is truthy. -/
def githubEventKind (xGithubEvent action : String) : String :=
  let ek0 := "github_" ++ xGithubEvent
  if action.isEmpty then ek0 else ek0 ++ "_" ++ action

/-- The `POST /webhooks/github` handler: rejects with HTTP 401 when a
secret is configured and the signature does not verify against the raw
body; otherwise parses the body (`body` is the JSON object parsed from
`raw`), derives the event kind, routes exactly one event via `on_event`,
and answers with the received kind.  The result carries the response and
the list of routed events. -/
def githubWebhook (webhookSecret : String) (raw : List Nat)
    (xHubSignature256 : String) (xGithubEvent : String)
    (body : List (String × String)) :
    Except (Nat × String) (String × List (Event (List (String × String)))) :=
  if !webhookSecret.isEmpty && !verifySignature raw xHubSignature256 webhookSecret then
    Except.error (401, "Invalid signature")
  else
    let action := (pyDictGet body "action").getD ""
    let eventKind := githubEventKind xGithubEvent action
    Except.ok (eventKind, [⟨eventKind, "github", body⟩])

/-- Claim C5: with a secret configured (non-empty, Python truthiness), a
request whose HMAC-SHA256 signature over the raw body is invalid is
rejected with a 401 authentication failure and routes zero events; the
same payload with a valid signature routes exactly one event whose kind
is derived from the `x-github-event` header and the body's `action`
field; with no secret configured, signature checking is skipped and the
request is processed. -/
theorem github_webhook_auth (secret : String) (hsec : secret.isEmpty = false)
    (raw : List Nat) (sig : String) (ev : String) (body : List (String × String)) :
    (verifySignature raw sig secret = false →
      githubWebhook secret raw sig ev body = Except.error (401, "Invalid signature"))
    ∧ (verifySignature raw sig secret = true →
      githubWebhook secret raw sig ev body
        = Except.ok (githubEventKind ev ((pyDictGet body "action").getD ""),
            [⟨githubEventKind ev ((pyDictGet body "action").getD ""), "github", body⟩]))
    ∧ githubWebhook "" raw sig ev body
        = Except.ok (githubEventKind ev ((pyDictGet body "action").getD ""),
            [⟨githubEventKind ev ((pyDictGet body "action").getD ""), "github", body⟩]) := by
  refine ⟨?_, ?_, rfl⟩
  · intro hv
    simp [githubWebhook, hsec, hv]
  · intro hv
    simp [githubWebhook, hsec, hv]

/-- Witness for C5: secret `"s3cr3t"`, raw body the bytes of
`"payload"`; the empty signature header fails verification and is
rejected, while the correctly computed signature header is accepted and
routes one `github_pull_request_opened` event. -/
theorem github_webhook_auth_witness :
    githubWebhook "s3cr3t" (strBytes "payload") "" "pull_request" [("action", "opened")]
      = Except.error (401, "Invalid signature")
    ∧ githubWebhook "s3cr3t" (strBytes "payload")
        ("sha256=" ++ bytesToHex (hmacSha256 (strBytes "s3cr3t") (strBytes "payload")))
        "pull_request" [("action", "opened")]
      = Except.ok ("github_pull_request_opened",
          [⟨"github_pull_request_opened", "github", [("action", "opened")]⟩]) := by
  have h1 := github_webhook_auth "s3cr3t" rfl (strBytes "payload") "" "pull_request"
    [("action", "opened")]
  have h2 := github_webhook_auth "s3cr3t" rfl (strBytes "payload")
    ("sha256=" ++ bytesToHex (hmacSha256 (strBytes "s3cr3t") (strBytes "payload")))
    "pull_request" [("action", "opened")]
  have hfalse : verifySignature (strBytes "payload") "" "s3cr3t" = false := by
    unfold verifySignature
    apply beq_eq_false_iff_ne.mpr
    intro hcontra
    have hlen := congrArg String.length hcontra
    rw [String.length_append] at hlen
    have h7 : ("sha256=" : String).length = 7 := rfl
    have h0 : ("" : String).length = 0 := rfl
    omega
  have htrue : verifySignature (strBytes "payload")
      ("sha256=" ++ bytesToHex (hmacSha256 (strBytes "s3cr3t") (strBytes "payload")))
      "s3cr3t" = true := by
    unfold verifySignature
    exact beq_self_eq_true _
  refine ⟨h1.1 hfalse, ?_⟩
  rw [h2.2.1 htrue]
  rfl

end AICompany
